import Mathlib

/-!
Verification of the finance-tracker import and categorization pipeline.

The definitions below are a shallow embedding of the Python sources under
`src/finance_tracker`: the three file parsers (`parsers/apple.py`,
`parsers/venmo.py`, `parsers/chase.py`), the dedup hash
(`database.py`), the categorization service (`services/category_service.py`)
and the import orchestrator (`services/import_service.py`).  The relational
store is modelled as lists of rows; CSV rows are modelled as association
lists from column name to cell text, which is what Python's `csv.DictReader`
hands to the parsers.
-/

/-! ### Character and string helpers mirroring Python primitives -/

/-- The ASCII whitespace characters matched by Python's `str.strip` and the
regex class `\s` on the inputs handled here. -/
def isPyWs (c : Char) : Bool :=
  c == ' ' || c == '\t' || c == '\n' || c == '\r' || c == '\x0b' || c == '\x0c'

/-- A regex word character (`\w`): ASCII letter, digit or underscore. -/
def isWordChar (c : Char) : Bool :=
  c.isAlpha || c.isDigit || c == '_'

/-- Drop whitespace from both ends of a character list (Python `str.strip`). -/
def trimList (l : List Char) : List Char :=
  ((l.dropWhile isPyWs).reverse.dropWhile isPyWs).reverse

/-- Python `str.strip`. -/
def trimWs (s : String) : String :=
  String.mk (trimList s.data)

/-- Python `str.replace(c, "")`: remove every occurrence of a character. -/
def removeChar (c : Char) (s : String) : String :=
  String.mk (s.data.filter (fun x => x != c))

/-- Python `str.upper` (ASCII range, which covers every pattern here). -/
def pyUpper (s : String) : String :=
  String.mk (s.data.map Char.toUpper)

/-- Python `str.lower` (ASCII range). -/
def pyLower (s : String) : String :=
  String.mk (s.data.map Char.toLower)

/-- Does `hay` start with `needle`? -/
def firstMatches : List Char → List Char → Bool
  | [], _ => true
  | _ :: _, [] => false
  | n :: ns, h :: hs => n == h && firstMatches ns hs

/-- Substring containment on character lists (Python's `needle in hay`). -/
def containsSub (hay needle : List Char) : Bool :=
  match hay with
  | [] => needle.isEmpty
  | _ :: t => firstMatches needle hay || containsSub t needle

/-- Python's `sub in s` substring test on strings. -/
def strContains (s sub : String) : Bool :=
  containsSub s.data sub.data

/-- Split a character list at every occurrence of `sep` (Python `str.split(sep)`). -/
def splitChar (sep : Char) : List Char → List (List Char)
  | [] => [[]]
  | c :: rest =>
    let r := splitChar sep rest
    if c == sep then [] :: r
    else
      match r with
      | t :: ts => (c :: t) :: ts
      | [] => [[c]]

/-- Parse a nonempty all-digit character list as a natural number. -/
def parseAllDigits (s : List Char) : Option Nat :=
  if s ≠ [] && s.all Char.isDigit then
    some (s.foldl (fun a c => 10 * a + (c.toNat - 48)) 0)
  else none

/-! ### Python `datetime.date` -/

/-- A calendar date as produced by `datetime.strptime(...).date()` /
`datetime.fromisoformat(...).date()`. -/
structure PyDate where
  year : Nat
  month : Nat
  day : Nat
deriving DecidableEq

/-- Gregorian leap-year rule used by `datetime` for day-of-month validation. -/
def isLeapYear (y : Nat) : Bool :=
  (y % 4 == 0 && y % 100 != 0) || y % 400 == 0

/-- Number of days in a month, as validated by `datetime.date`. -/
def daysInMonth (y m : Nat) : Nat :=
  if m == 2 then (if isLeapYear y then 29 else 28)
  else if m == 4 || m == 6 || m == 9 || m == 11 then 30
  else 31

/-- Build a date, enforcing the range checks `datetime.date` performs. -/
def mkValidDate (y m d : Nat) : Option PyDate :=
  if 1 ≤ y && y ≤ 9999 && 1 ≤ m && m ≤ 12 && 1 ≤ d && d ≤ daysInMonth y m then
    some ⟨y, m, d⟩
  else none

/-- Model of `datetime.strptime(s, "%m/%d/%Y").date()`: one or two digits of
month and day, exactly four digits of year, `/` separators, full-string match. -/
def parseDateMDY (s : String) : Option PyDate :=
  match splitChar '/' s.data with
  | [ms, ds, ys] =>
    if ms.length ≤ 2 && ds.length ≤ 2 && ys.length == 4 then
      match parseAllDigits ms, parseAllDigits ds, parseAllDigits ys with
      | some m, some d, some y => mkValidDate y m d
      | _, _, _ => none
    else none
  | _ => none

/-- Model of `datetime.fromisoformat(s).date()`: a `YYYY-MM-DD` date,
optionally followed by a `T` or space and a time part. -/
def parseIsoDate (s : String) : Option PyDate :=
  let cs := s.data
  if cs.length < 10 then none
  else
    let restOk :=
      match cs.drop 10 with
      | [] => true
      | c :: _ => c == 'T' || c == ' '
    match splitChar '-' (cs.take 10) with
    | [ys, ms, ds] =>
      if ys.length == 4 && ms.length == 2 && ds.length == 2 && restOk then
        match parseAllDigits ys, parseAllDigits ms, parseAllDigits ds with
        | some y, some m, some d => mkValidDate y m d
        | _, _, _ => none
      else none
    | _ => none

/-- Left-pad a numeral to two digits. -/
def pad2 (n : Nat) : String :=
  if n < 10 then "0" ++ toString n else toString n

/-- Left-pad a numeral to four digits. -/
def pad4 (n : Nat) : String :=
  if n < 10 then "000" ++ toString n
  else if n < 100 then "00" ++ toString n
  else if n < 1000 then "0" ++ toString n
  else toString n

/-- Python `str(date)`: the ISO `YYYY-MM-DD` rendering. -/
def strOfDate (d : PyDate) : String :=
  pad4 d.year ++ "-" ++ pad2 d.month ++ "-" ++ pad2 d.day

/-! ### Python `decimal.Decimal`

The parsers only ever build decimals from plain numeric literals
(optional sign, digits, optional fraction), so the model keeps a sign,
a coefficient and a fractional-digit count.  `str` on such a value never
uses scientific notation (Python switches to it only below `1e-6`, which
the bank formats here never produce). -/

structure PyDecimal where
  neg : Bool
  coeff : Nat
  scale : Nat
deriving DecidableEq

/-- Python unary minus on a `Decimal`: the sign flips, except that negating
a zero yields positive zero under the default rounding context
(`-Decimal("0.00")` is `Decimal("0.00")`, whereas the literal
`Decimal("-0.00")` does keep its negative sign). -/
def decNeg (d : PyDecimal) : PyDecimal :=
  if d.coeff == 0 then ⟨false, d.coeff, d.scale⟩ else ⟨!d.neg, d.coeff, d.scale⟩

/-- Python `amount > 0` on a `Decimal`. -/
def decIsPos (d : PyDecimal) : Bool :=
  !d.neg && d.coeff != 0

/-- Python `amount < 0` on a `Decimal`. -/
def decIsNeg (d : PyDecimal) : Bool :=
  d.neg && d.coeff != 0

/-- Model of the `Decimal(s)` constructor for plain numeric literals:
surrounding whitespace is tolerated, then an optional sign, digits and an
optional single point; at least one digit must be present. -/
def parseDec (s : String) : Option PyDecimal :=
  let cs := trimList s.data
  let (sg, body) :=
    match cs with
    | '+' :: r => (false, r)
    | '-' :: r => (true, r)
    | r => (false, r)
  match splitChar '.' body with
  | [ip] =>
    match parseAllDigits ip with
    | some v => some ⟨sg, v, 0⟩
    | none => none
  | [ip, fp] =>
    if (ip ++ fp) ≠ [] && (ip ++ fp).all Char.isDigit then
      some ⟨sg, (ip ++ fp).foldl (fun a c => 10 * a + (c.toNat - 48)) 0, fp.length⟩
    else none
  | _ => none

/-- Python `str(Decimal)` for the values built above: plain positional
notation with the point inserted `scale` digits from the right. -/
def strOfDec (d : PyDecimal) : String :=
  let ds := (toString d.coeff).data
  let padded :=
    if ds.length < d.scale + 1 then List.replicate (d.scale + 1 - ds.length) '0' ++ ds
    else ds
  let body :=
    if d.scale == 0 then padded
    else padded.take (padded.length - d.scale) ++ '.' :: padded.drop (padded.length - d.scale)
  (if d.neg then "-" else "") ++ String.mk body

/-! ### SHA-256 (`hashlib.sha256(...).hexdigest()`)

A direct rendering of FIPS 180-4 over byte lists, with 32-bit words
represented as naturals reduced modulo `2^32`. -/

/-- UTF-8 encoding of one code point (Python `str.encode()`). -/
def utf8EncodeChar (c : Char) : List Nat :=
  let n := c.toNat
  if n < 0x80 then [n]
  else if n < 0x800 then
    [0xC0 ||| (n >>> 6), 0x80 ||| (n &&& 0x3F)]
  else if n < 0x10000 then
    [0xE0 ||| (n >>> 12), 0x80 ||| ((n >>> 6) &&& 0x3F), 0x80 ||| (n &&& 0x3F)]
  else
    [0xF0 ||| (n >>> 18), 0x80 ||| ((n >>> 12) &&& 0x3F),
     0x80 ||| ((n >>> 6) &&& 0x3F), 0x80 ||| (n &&& 0x3F)]

/-- UTF-8 bytes of a string. -/
def utf8Bytes (s : String) : List Nat :=
  s.data.foldr (fun c acc => utf8EncodeChar c ++ acc) []

/-- The 64 SHA-256 round constants. -/
def sha256K : List Nat :=
  [1116352408, 1899447441, 3049323471, 3921009573, 961987163,
   1508970993, 2453635748, 2870763221, 3624381080, 310598401,
   607225278, 1426881987, 1925078388, 2162078206, 2614888103,
   3248222580, 3835390401, 4022224774, 264347078, 604807628,
   770255983, 1249150122, 1555081692, 1996064986, 2554220882,
   2821834349, 2952996808, 3210313671, 3336571891, 3584528711,
   113926993, 338241895, 666307205, 773529912, 1294757372,
   1396182291, 1695183700, 1986661051, 2177026350, 2456956037,
   2730485921, 2820302411, 3259730800, 3345764771, 3516065817,
   3600352804, 4094571909, 275423344, 430227734, 506948616,
   659060556, 883997877, 958139571, 1322822218, 1537002063,
   1747873779, 1955562222, 2024104815, 2227730452, 2361852424,
   2428436474, 2756734187, 3204031479, 3329325298]

/-- The SHA-256 initial hash values. -/
def sha256H0 : List Nat :=
  [1779033703, 3144134277, 1013904242,
   2773480762, 1359893119, 2600822924,
   528734635, 1541459225]

/-- Right rotation of a 32-bit word. -/
def rotr (n x : Nat) : Nat :=
  ((x >>> n) ||| (x <<< (32 - n))) % 4294967296

/-- Big-endian byte rendering of `v` on `n` bytes. -/
def bigEndianBytes (n v : Nat) : List Nat :=
  (List.range n).map (fun i => (v >>> (8 * (n - 1 - i))) % 256)

/-- Merkle–Damgård padding: `0x80`, zeros to 56 mod 64, 64-bit bit length. -/
def sha256Pad (msg : List Nat) : List Nat :=
  let len := msg.length
  let padZeros := (119 - (len % 64)) % 64
  msg ++ [0x80] ++ List.replicate padZeros 0 ++ bigEndianBytes 8 (8 * len)

/-- Split a list into chunks of `m + 1` elements. -/
def chunkList (m : Nat) (l : List Nat) : List (List Nat) :=
  match l with
  | [] => []
  | x :: xs => (x :: xs).take (m + 1) :: chunkList m ((x :: xs).drop (m + 1))
termination_by l.length
decreasing_by
  simp [List.length_drop]
  omega

/-- A big-endian 32-bit word from four bytes. -/
def beWord (bs : List Nat) : Nat :=
  bs.foldl (fun acc b => acc * 256 + b) 0

/-- Extend the 16-word message schedule by `fuel` further words. -/
def extendW (w : List Nat) : Nat → List Nat
  | 0 => w
  | n + 1 =>
    let i := w.length
    let w15 := w.getD (i - 15) 0
    let w2 := w.getD (i - 2) 0
    let w16 := w.getD (i - 16) 0
    let w7 := w.getD (i - 7) 0
    let s0 := (rotr 7 w15) ^^^ (rotr 18 w15) ^^^ (w15 >>> 3)
    let s1 := (rotr 17 w2) ^^^ (rotr 19 w2) ^^^ (w2 >>> 10)
    extendW (w ++ [(w16 + s0 + w7 + s1) % 4294967296]) n

/-- One SHA-256 compression round. -/
def sha256Round (w : List Nat)
    (st : Nat × Nat × Nat × Nat × Nat × Nat × Nat × Nat) (i : Nat) :
    Nat × Nat × Nat × Nat × Nat × Nat × Nat × Nat :=
  match st with
  | (a, b, c, d, e, f, g, hh) =>
    let s1 := (rotr 6 e) ^^^ (rotr 11 e) ^^^ (rotr 25 e)
    let ch := (e &&& f) ^^^ ((4294967295 ^^^ e) &&& g)
    let temp1 := (hh + s1 + ch + sha256K.getD i 0 + w.getD i 0) % 4294967296
    let s0 := (rotr 2 a) ^^^ (rotr 13 a) ^^^ (rotr 22 a)
    let maj := (a &&& b) ^^^ (a &&& c) ^^^ (b &&& c)
    let temp2 := (s0 + maj) % 4294967296
    ((temp1 + temp2) % 4294967296, a, b, c, (d + temp1) % 4294967296, e, f, g)

/-- Compress one 64-byte block into the running hash state. -/
def sha256Compress (h : List Nat) (block : List Nat) : List Nat :=
  let w := extendW ((chunkList 3 block).map beWord) 48
  match (List.range 64).foldl (sha256Round w)
      (h.getD 0 0, h.getD 1 0, h.getD 2 0, h.getD 3 0,
       h.getD 4 0, h.getD 5 0, h.getD 6 0, h.getD 7 0) with
  | (a, b, c, d, e, f, g, hh) =>
    [(h.getD 0 0 + a) % 4294967296, (h.getD 1 0 + b) % 4294967296,
     (h.getD 2 0 + c) % 4294967296, (h.getD 3 0 + d) % 4294967296,
     (h.getD 4 0 + e) % 4294967296, (h.getD 5 0 + f) % 4294967296,
     (h.getD 6 0 + g) % 4294967296, (h.getD 7 0 + hh) % 4294967296]

/-- SHA-256 digest of a byte list, as 32 bytes. -/
def sha256Bytes (msg : List Nat) : List Nat :=
  let blocks := chunkList 63 (sha256Pad msg)
  (blocks.foldl sha256Compress sha256H0).foldr
    (fun wd acc => bigEndianBytes 4 wd ++ acc) []

/-- One lowercase hexadecimal digit. -/
def hexDigit (n : Nat) : Char :=
  if n < 10 then Char.ofNat (48 + n) else Char.ofNat (87 + n)

/-- Lowercase hex digest of the SHA-256 of a string's UTF-8 bytes:
`hashlib.sha256(s.encode()).hexdigest()`. -/
def sha256hex (s : String) : String :=
  String.mk ((sha256Bytes (utf8Bytes s)).foldr
    (fun b acc => hexDigit (b / 16) :: hexDigit (b % 16) :: acc) [])

/-- `database.generate_import_hash`: the dedup fingerprint is the SHA-256
hex digest of the four fields joined with `|`. -/
def generate_import_hash (date amount description source : String) : String :=
  sha256hex (date ++ "|" ++ amount ++ "|" ++ description ++ "|" ++ source)

/-- The canonicalized pre-image string the spec describes for the
Deduplicator: the four fields joined with the fixed separator `|`. -/
def joinFields (date amount description source : String) : String :=
  date ++ "|" ++ amount ++ "|" ++ description ++ "|" ++ source

/-! ### `ChaseParser._extract_merchant` (parsers/chase.py)

The three `re.sub` passes are rendered as direct character-list scans with
the same leftmost, greedy-with-backtracking semantics as the patterns
`\b\d{10,}\b`, `^(DEBIT CARD|CREDIT CARD|ACH|CHECKCARD|POS)\s+` (case
insensitive) and the date pattern (one or two digits, a slash-or-dash separator, one or two digits, the separator again, two to four digits, with word boundaries). -/

/-- Emit a (reversed) digit run unless it is a `\b\d{10,}\b` match:
ten or more digits with word boundaries on both sides. -/
def emitRun (boundaryOk : Bool) (run : List Char) (nextOk : Bool) : List Char :=
  if 10 ≤ run.length && boundaryOk && nextOk then [] else run

/-- Scan for `\b\d{10,}\b` matches.  `boundaryOk` says whether the character
before the digit run being accumulated (in reverse) in `run` is absent or a
non-word character. -/
def sdrGo (boundaryOk : Bool) (run : List Char) : List Char → List Char
  | [] => emitRun boundaryOk run.reverse true
  | c :: rest =>
    if c.isDigit then sdrGo boundaryOk (c :: run) rest
    else emitRun boundaryOk run.reverse (!isWordChar c) ++ c :: sdrGo (!isWordChar c) [] rest

/-- `re.sub(r"\b\d{10,}\b", "", s)`: strip transaction-id digit runs. -/
def stripDigitRuns (s : String) : String :=
  String.mk (sdrGo true [] s.data)

/-- The alternatives of the institutional-marker pattern, in source order. -/
def markerAlts : List (List Char) :=
  ["DEBIT CARD".data, "CREDIT CARD".data, "ACH".data, "CHECKCARD".data, "POS".data]

/-- Try one alternative of `^(…)\s+` case-insensitively: the marker must be
followed by at least one whitespace character, and `\s+` is greedy. -/
def tryAlt (s : List Char) (alt : List Char) : Option (List Char) :=
  if firstMatches alt (s.map Char.toUpper) then
    match s.drop alt.length with
    | c :: rest => if isPyWs c then some ((c :: rest).dropWhile isPyWs) else none
    | [] => none
  else none

/-- `re.sub(r"^(DEBIT CARD|CREDIT CARD|ACH|CHECKCARD|POS)\s+", "", s, flags=re.I)`. -/
def stripLeadingMarker (s : String) : String :=
  match markerAlts.findSome? (tryAlt s.data) with
  | some r => String.mk r
  | none => s

/-- Are the first `n` characters all digits? -/
def digitsAt (s : List Char) (n : Nat) : Bool :=
  n ≤ s.length && (s.take n).all Char.isDigit

/-- Match `\d{c}\b` at the head of `s` for a given `c`. -/
def dateTail (s : List Char) (c : Nat) : Bool :=
  digitsAt s c &&
    (match s.drop c with
     | [] => true
     | d :: _ => !isWordChar d)

/-- Match digits-separator-digits (`b` digits, a slash or dash, then two to four digits and a word boundary) at the head of `s`, with the final quantifier
greedy (4, then 3, then 2); returns the matched length. -/
def dateFrom2 (s : List Char) (b : Nat) : Option Nat :=
  if digitsAt s b then
    match s.drop b with
    | sep :: rest =>
      if sep == '/' || sep == '-' then
        if dateTail rest 4 then some (b + 1 + 4)
        else if dateTail rest 3 then some (b + 1 + 3)
        else if dateTail rest 2 then some (b + 1 + 2)
        else none
      else none
    | [] => none
  else none

/-- Match the full date pattern with a fixed first quantifier `a` at the head of `s`, with the middle
quantifier greedy (2, then 1); returns the matched length. -/
def dateFrom1 (s : List Char) (a : Nat) : Option Nat :=
  if digitsAt s a then
    match s.drop a with
    | sep :: rest =>
      if sep == '/' || sep == '-' then
        match dateFrom2 rest 2 with
        | some n => some (a + 1 + n)
        | none =>
          match dateFrom2 rest 1 with
          | some n => some (a + 1 + n)
          | none => none
      else none
    | [] => none
  else none

/-- Match the date pattern at the head of `s`; the leading quantifier is
greedy (2 digits, then 1).  The leading `\b` is checked by the caller. -/
def dateMatchLen (s : List Char) : Option Nat :=
  match dateFrom1 s 2 with
  | some n => some n
  | none => dateFrom1 s 1

/-- Scan for matches of the date pattern (one or two digits, a
slash-or-dash separator, one or two digits, the separator again, two to four
digits, with word boundaries).  `prevIsWord` says whether the previous
character of the original string is a word character (`false` at the start
of the string); `skip` counts characters of a found match still to be
deleted (the characters of a match are word characters ending in a digit,
hence `prevIsWord` is `true` while skipping and just after). -/
def stripDatesGo (prevIsWord : Bool) (skip : Nat) : List Char → List Char
  | [] => []
  | c :: rest =>
    match skip with
    | n + 1 => stripDatesGo true n rest
    | 0 =>
      if !prevIsWord && c.isDigit then
        match dateMatchLen (c :: rest) with
        | some n => stripDatesGo true (n - 1) rest
        | none => c :: stripDatesGo (isWordChar c) 0 rest
      else c :: stripDatesGo (isWordChar c) 0 rest

/-- the third `re.sub` of `_extract_merchant`: remove every date-like match. -/
def stripDateLike (s : String) : String :=
  String.mk (stripDatesGo false 0 s.data)

/-- Replace each whitespace run by a single space; `inWs` says whether the
previous character was whitespace (`re.sub(r"\s+", " ", s)` emits one space
per run). -/
def squeezeGo (inWs : Bool) : List Char → List Char
  | [] => []
  | c :: rest =>
    if isPyWs c then
      if inWs then squeezeGo true rest else ' ' :: squeezeGo true rest
    else c :: squeezeGo false rest

/-- `re.sub(r"\s+", " ", s)` on a character list. -/
def squeezeWs (l : List Char) : List Char :=
  squeezeGo false l

/-- `re.sub(r"\s+", " ", s).strip()`. -/
def collapseWs (s : String) : String :=
  String.mk (trimList (squeezeWs s.data))

/-- The cleanup pipeline of `ChaseParser._extract_merchant`: strip long digit
runs, strip a leading institutional marker, strip date-like substrings,
collapse whitespace and trim. -/
def chaseCleanDescription (description : String) : String :=
  collapseWs (stripDateLike (stripLeadingMarker (stripDigitRuns description)))

/-- `ChaseParser._extract_merchant`: the cleaned description, or `None` when
the cleanup yields the empty string or changed nothing. -/
def chaseExtractMerchant (description : String) : Option String :=
  let cleaned := chaseCleanDescription description
  if cleaned != "" && cleaned != description then some cleaned else none

/-! ### Parsed transactions and CSV rows (parsers/base.py) -/

/-- `ParsedTransaction` from parsers/base.py. -/
structure ParsedTransaction where
  date : PyDate
  amount : PyDecimal
  description : String
  merchant : Option String := none
  original_category : Option String := none
deriving DecidableEq

/-- `ParseResult` from parsers/base.py. -/
structure ParseResult where
  transactions : List ParsedTransaction
  account_name : String
  institution : String
  warnings : List String
deriving DecidableEq

/-- A `csv.DictReader` row: an association list from column name to cell. -/
abbrev Row := List (String × String)

/-- Python `row.get(k)`: `None` when the key is absent. -/
def rowGetOpt (row : Row) (k : String) : Option String :=
  (row.find? (fun p => p.1 == k)).map (fun p => p.2)

/-- Python `row.get(k, d)`. -/
def rowGetD (row : Row) (k d : String) : String :=
  (rowGetOpt row k).getD d

/-- Python `row[k]`: a `KeyError` (whose `str` is the quoted key) when absent. -/
def rowGetE (row : Row) (k : String) : Except String String :=
  match rowGetOpt row k with
  | some v => Except.ok v
  | none => Except.error ("'" ++ k ++ "'")

/-! ### `AppleCardParser` (parsers/apple.py) -/

/-- The required Apple Card CSV headers. -/
def appleRequiredHeaders : List String :=
  ["Transaction Date", "Clearing Date", "Description", "Merchant", "Category",
   "Type", "Amount (USD)"]

/-- `AppleCardParser._parse_row`: a raised exception is modelled as
`Except.error` carrying the exception's message. -/
def appleParseRow (row : Row) : Except String ParsedTransaction :=
  match rowGetE row "Transaction Date" with
  | Except.error e => Except.error e
  | Except.ok date_str =>
    match parseDateMDY date_str with
    | none => Except.error ("time data does not match format: " ++ date_str)
    | some date_obj =>
      match rowGetE row "Amount (USD)" with
      | Except.error e => Except.error e
      | Except.ok raw_amount =>
        let amount_str := removeChar ',' raw_amount
        match parseDec amount_str with
        | none => Except.error ("InvalidOperation: " ++ amount_str)
        | some amount0 =>
          let txn_type := rowGetD row "Type" ""
          let amount := if txn_type == "Purchase" then decNeg amount0 else amount0
          match rowGetE row "Description" with
          | Except.error e => Except.error e
          | Except.ok description =>
            let m := trimWs (rowGetD row "Merchant" "")
            let c := trimWs (rowGetD row "Category" "")
            Except.ok
              { date := date_obj, amount := amount, description := description,
                merchant := if m == "" then none else some m,
                original_category := if c == "" then none else some c }

/-- The row loop of `AppleCardParser.parse`: each failing row becomes a
warning `Row N: cause` and is skipped; `N` starts at 2 (line after header). -/
def appleParseRows (n : Nat) : List Row → List ParsedTransaction × List String
  | [] => ([], [])
  | row :: rest =>
    let r := appleParseRows (n + 1) rest
    match appleParseRow row with
    | Except.ok txn => (txn :: r.1, r.2)
    | Except.error e => (r.1, ("Row " ++ toString n ++ ": " ++ e) :: r.2)

/-- `AppleCardParser.parse` from already-read CSV rows. -/
def appleParse (rows : List Row) : ParseResult :=
  let r := appleParseRows 2 rows
  { transactions := r.1, account_name := "Apple Card", institution := "Apple",
    warnings := r.2 }

/-- Does `hay` end with `needle`? -/
def listEndsWith (hay needle : List Char) : Bool :=
  firstMatches needle.reverse hay.reverse

/-- Does a path's lowercased extension equal `.csv`? -/
def hasCsvSuffix (name : String) : Bool :=
  listEndsWith (pyLower name).data ".csv".data

/-! ### `VenmoParser` (parsers/venmo.py) -/

/-- Has this row the `Complete` status and a type other than
`Standard Transfer`?  These are the two `continue` filters of
`VenmoParser.parse`. -/
def venmoIncluded (row : Row) : Bool :=
  (rowGetOpt row "Status" == some "Complete") &&
    !(rowGetD row "Type" "" == "Standard Transfer")

/-- `VenmoParser._parse_row`. -/
def venmoParseRow (row : Row) : Except String ParsedTransaction :=
  match rowGetE row "Datetime" with
  | Except.error e => Except.error e
  | Except.ok datetime_str =>
    match parseIsoDate datetime_str with
    | none => Except.error ("Invalid isoformat string: " ++ datetime_str)
    | some date_obj =>
      match rowGetE row "Amount (total)" with
      | Except.error e => Except.error e
      | Except.ok raw_amount =>
        let amount_str := trimWs (removeChar ',' (removeChar '$' (trimWs raw_amount)))
        let parsed :=
          match amount_str.data with
          | '+' :: r => parseDec (trimWs (String.mk r))
          | '-' :: r => (parseDec (trimWs (String.mk r))).map decNeg
          | _ => parseDec amount_str
        match parsed with
        | none => Except.error ("InvalidOperation: " ++ amount_str)
        | some amount1 =>
          let txn_type := rowGetD row "Type" ""
          let from_user := rowGetD row "From" ""
          let to_user := rowGetD row "To" ""
          let amount := if txn_type == "Charge" then decNeg amount1 else amount1
          let note := trimWs (rowGetD row "Note" "")
          let description :=
            if note == "" then
              if decIsPos amount then "Payment from " ++ from_user
              else "Payment to " ++ to_user
            else note
          let merchant0 := if decIsNeg amount then to_user else from_user
          let merchant := if merchant0 == "" then none else some (trimWs merchant0)
          Except.ok
            { date := date_obj, amount := amount, description := description,
              merchant := merchant, original_category := some txn_type }

/-- The row loop of `VenmoParser.parse`: incomplete rows and standard
transfers are skipped before parsing (so they produce neither a transaction
nor a warning); each failing remaining row becomes a `Row N: cause` warning. -/
def venmoRowLoop (n : Nat) : List Row → List ParsedTransaction × List String
  | [] => ([], [])
  | row :: rest =>
    let r := venmoRowLoop (n + 1) rest
    if rowGetOpt row "Status" != some "Complete" then r
    else if rowGetD row "Type" "" == "Standard Transfer" then r
    else
      match venmoParseRow row with
      | Except.ok txn => (txn :: r.1, r.2)
      | Except.error e => (r.1, ("Row " ++ toString n ++ ": " ++ e) :: r.2)

/-- `VenmoParser.parse` from the rows following the detected header line,
with `n` the 1-based file line of the first data row. -/
def venmoParse (n : Nat) (rows : List Row) : ParseResult :=
  let r := venmoRowLoop n rows
  { transactions := r.1, account_name := "Venmo", institution := "Venmo",
    warnings := r.2 }

/-! ### Files and the parser registry (services/import_service.py) -/

/-- A file as the orchestrator-level model sees it: its name, the CSV header
row, and the data rows keyed by header. -/
structure FileModel where
  name : String
  headers : List String
  rows : List Row
deriving DecidableEq

/-- A parser as the registry sees it: `can_parse` and `parse`, where a
format-level exception of `parse` is `Except.error`. -/
structure ParserModel where
  canParse : FileModel → Bool
  parse : FileModel → Except String ParseResult

/-- The Apple Card parser instance over file models. -/
def appleParserModel : ParserModel where
  canParse f := hasCsvSuffix f.name && appleRequiredHeaders.all (fun h => f.headers.contains h)
  parse f := Except.ok (appleParse f.rows)

/-- `detect_parser`: the first registered parser whose `can_parse` accepts
the file. -/
def detectParser (ps : List ParserModel) (f : FileModel) : Option ParserModel :=
  ps.find? (fun p => p.canParse f)

/-! ### The relational store (database.py schema) -/

/-- A row of the `accounts` table. -/
structure DbAccount where
  id : Nat
  name : String
  institution : String
  account_type : Option String
deriving DecidableEq

/-- A row of the `categories` table. -/
structure DbCategory where
  id : Nat
  name : String
  parent_id : Option Nat
  color : Option String
deriving DecidableEq

/-- A row of the `transactions` table. -/
structure DbTransaction where
  id : Nat
  account_id : Nat
  date : String
  amount : PyDecimal
  description : String
  merchant : Option String
  category_id : Nat
  original_category : Option String
  import_hash : String
deriving DecidableEq

/-- A row of the `imports` table (ImportRecord). -/
structure DbImport where
  filename : String
  institution : String
  transaction_count : Nat
  status : String
deriving DecidableEq

/-- A row of the `category_rules` table. -/
structure CategoryRule where
  id : Nat
  pattern : String
  category_id : Nat
  priority : Int
deriving DecidableEq

/-- The store: the five tables, each as a list in rowid order. -/
structure Store where
  accounts : List DbAccount
  categories : List DbCategory
  transactions : List DbTransaction
  imports : List DbImport
  category_rules : List CategoryRule
deriving DecidableEq

/-! ### Category service (services/category_service.py) -/

/-- Insert a rule into a priority-descending list, after existing rules of
the same priority. -/
def insertRuleDesc (r : CategoryRule) : List CategoryRule → List CategoryRule
  | [] => [r]
  | x :: xs => if x.priority < r.priority then r :: x :: xs else x :: insertRuleDesc r xs

/-- Sort rules by priority descending (`ORDER BY priority DESC`), keeping
storage order among equal priorities. -/
def sortRulesDesc (l : List CategoryRule) : List CategoryRule :=
  l.foldr insertRuleDesc []

/-- `get_category_rules`: all rules sorted by priority descending. -/
def get_category_rules (store : Store) : List CategoryRule :=
  sortRulesDesc store.category_rules

/-- Does a rule match a description: `rule["pattern"].upper() in
description.upper()`. -/
def ruleMatches (description : String) (r : CategoryRule) : Bool :=
  strContains (pyUpper description) (pyUpper r.pattern)

/-- `categorize_transaction`: the category of the first rule, in descending
priority order, whose pattern occurs case-insensitively in the description. -/
def categorize_transaction (store : Store) (description : String) : Option Nat :=
  ((get_category_rules store).find? (ruleMatches description)).map
    (fun r => r.category_id)

/-- `get_uncategorized_category_id`: the id of the first category named
`Uncategorized`, or a raised `ValueError`. -/
def get_uncategorized_category_id (store : Store) : Except String Nat :=
  match store.categories.find? (fun c => c.name == "Uncategorized") with
  | some c => Except.ok c.id
  | none => Except.error "Uncategorized category not found in database"

/-! ### Import service (services/import_service.py) -/

/-- `get_or_create_account`: look up `(name, institution)`, creating the
account when absent; returns the store and the account id. -/
def get_or_create_account (store : Store) (account_name institution : String) :
    Store × Nat :=
  match store.accounts.find? (fun a => a.name == account_name && a.institution == institution) with
  | some a => (store, a.id)
  | none =>
    let newId := store.accounts.length + 1
    ({ store with
        accounts := store.accounts ++ [⟨newId, account_name, institution, none⟩] },
     newId)

/-- The dedup hash `import_transaction` computes for a parsed transaction:
`generate_import_hash(str(txn.date), str(txn.amount), txn.description, source)`. -/
def txnHash (txn : ParsedTransaction) (source : String) : String :=
  generate_import_hash (strOfDate txn.date) (strOfDec txn.amount) txn.description source

/-- The `transactions` row `import_transaction` inserts. -/
def insertedTransaction (store : Store) (account_id : Nat) (txn : ParsedTransaction)
    (category_id : Nat) (import_hash : String) : DbTransaction :=
  { id := store.transactions.length + 1, account_id := account_id,
    date := strOfDate txn.date, amount := txn.amount,
    description := txn.description, merchant := txn.merchant,
    category_id := category_id, original_category := txn.original_category,
    import_hash := import_hash }

/-- `import_transaction`: skip as a duplicate when the hash already exists;
otherwise categorize (falling back to the Uncategorized id, whose absence
raises) and insert.  Returns the store, the row id and the duplicate flag. -/
def import_transaction (store : Store) (account_id : Nat) (txn : ParsedTransaction)
    (source : String) : Except String (Store × Nat × Bool) :=
  match store.transactions.find? (fun t => t.import_hash == txnHash txn source) with
  | some existing => Except.ok (store, existing.id, true)
  | none =>
    match
      (match categorize_transaction store txn.description with
       | some c => Except.ok c
       | none => get_uncategorized_category_id store) with
    | Except.error e => Except.error e
    | Except.ok category_id =>
      Except.ok
        ({ store with
            transactions := store.transactions ++
              [insertedTransaction store account_id txn category_id (txnHash txn source)] },
         (insertedTransaction store account_id txn category_id (txnHash txn source)).id,
         false)

/-- The per-row loop of `import_file`: any exception from a row is caught,
recorded as `Transaction {idx} ({date} ${amount}): {cause}`, and the loop
continues.  Returns the store, the imported count, the duplicate count and
the error list, in source row order. -/
def importLoop (account_id : Nat) (source : String) :
    Store → Nat → List ParsedTransaction → Store × Nat × Nat × List String
  | store, _, [] => (store, 0, 0, [])
  | store, idx, txn :: rest =>
    match import_transaction store account_id txn source with
    | Except.ok (store1, _, is_duplicate) =>
      let r := importLoop account_id source store1 (idx + 1) rest
      if is_duplicate then (r.1, r.2.1, r.2.2.1 + 1, r.2.2.2)
      else (r.1, r.2.1 + 1, r.2.2.1, r.2.2.2)
    | Except.error e =>
      let r := importLoop account_id source store (idx + 1) rest
      (r.1, r.2.1, r.2.2.1,
       ("Transaction " ++ toString idx ++ " (" ++ strOfDate txn.date ++ " $" ++
        strOfDec txn.amount ++ "): " ++ e) :: r.2.2.2)

/-- Account resolution followed by the per-row loop of `import_file`:
an explicit account id is used as-is, otherwise the account is found or
created from the parse result; the dedup source is the lowercased
institution. -/
def importPhase (store : Store) (account_id : Option Nat) (result : ParseResult) :
    Store × Nat × Nat × List String :=
  let resolved :=
    match account_id with
    | some a => (store, a)
    | none => get_or_create_account store result.account_name result.institution
  importLoop resolved.2 (pyLower result.institution) resolved.1 1 result.transactions

/-- The summary dictionary `import_file` returns. -/
structure ImportSummary where
  filename : String
  institution : String
  account_name : String
  total_transactions : Nat
  imported : Nat
  duplicates : Nat
  errors : List String
  status : String
deriving DecidableEq

/-- `import_file`: detect a parser (raising when none matches), parse,
resolve the account, run the per-row loop, compute the status from the
per-row errors, append the ImportRecord, and return the summary whose error
list is the per-row errors followed by the parser warnings. -/
def import_file (ps : List ParserModel) (store : Store) (file : FileModel)
    (account_id : Option Nat) : Except String (Store × ImportSummary) :=
  match detectParser ps file with
  | none => Except.error ("No parser found for file: " ++ file.name)
  | some p =>
    match p.parse file with
    | Except.error e => Except.error e
    | Except.ok result =>
      let phase := importPhase store account_id result
      let imported := phase.2.1
      let duplicates := phase.2.2.1
      let errors := phase.2.2.2
      let status :=
        if errors.isEmpty then "success"
        else if 0 < imported then "partial"
        else "failed"
      let store3 :=
        { phase.1 with
            imports := phase.1.imports ++
              [⟨file.name, result.institution, imported, status⟩] }
      Except.ok
        (store3,
         { filename := file.name, institution := result.institution,
           account_name := result.account_name,
           total_transactions := result.transactions.length,
           imported := imported, duplicates := duplicates,
           errors := errors ++ result.warnings, status := status })

/-- The import hashes currently stored in the `transactions` table. -/
def storeHashes (store : Store) : List String :=
  store.transactions.map (fun t => t.import_hash)

/-! ### Concrete fixtures used by witnesses and counterexamples -/

/-- A store seeded with only the `Uncategorized` category and no rules. -/
def c1Store : Store :=
  { accounts := [], categories := [⟨1, "Uncategorized", none, none⟩],
    transactions := [], imports := [], category_rules := [] }

/-- A well-formed Apple Card row. -/
def c1GoodRow : Row :=
  [("Transaction Date", "12/01/2024"), ("Clearing Date", "12/02/2024"),
   ("Description", "STARBUCKS #123"), ("Merchant", "Starbucks"),
   ("Category", "Dining"), ("Type", "Purchase"), ("Amount (USD)", "12.34")]

/-- An Apple Card row with an unparseable date. -/
def c1BadRow : Row :=
  [("Transaction Date", "oops"), ("Clearing Date", "12/02/2024"),
   ("Description", "X"), ("Merchant", ""), ("Category", ""),
   ("Type", "Purchase"), ("Amount (USD)", "1.00")]

/-- An Apple Card file with one good and one malformed row. -/
def c1File : FileModel :=
  { name := "c1.csv", headers := appleRequiredHeaders, rows := [c1GoodRow, c1BadRow] }

/-- A store whose `categories` table lacks `Uncategorized`. -/
def c2Store : Store :=
  { accounts := [], categories := [⟨1, "Food", none, none⟩],
    transactions := [], imports := [], category_rules := [] }

/-- A second well-formed Apple Card row with a different amount. -/
def c2OtherRow : Row :=
  [("Transaction Date", "12/03/2024"), ("Clearing Date", "12/04/2024"),
   ("Description", "SHELL"), ("Merchant", ""), ("Category", ""),
   ("Type", "Purchase"), ("Amount (USD)", "30.00")]

/-- An Apple Card file with two well-formed rows. -/
def c2File : FileModel :=
  { name := "c2.csv", headers := appleRequiredHeaders, rows := [c1GoodRow, c2OtherRow] }

/-- Store for the C3 witness. -/
def w3Store : Store :=
  { accounts := [], categories := [⟨1, "Uncategorized", none, none⟩],
    transactions := [], imports := [], category_rules := [] }

/-- File for the C3 witness. -/
def w3File : FileModel :=
  { name := "w3.csv", headers := appleRequiredHeaders, rows := [c1GoodRow] }

/-- Store for the C4 witness. -/
def c4Store : Store :=
  { accounts := [], categories := [⟨1, "Uncategorized", none, none⟩],
    transactions := [], imports := [], category_rules := [] }

/-- File for the C4 witness. -/
def c4File : FileModel :=
  { name := "c4.csv", headers := appleRequiredHeaders, rows := [c1GoodRow, c2OtherRow] }

/-- The rule table of the spec's rule-priority scenario. -/
def starStore : Store :=
  { accounts := [], categories := [], transactions := [], imports := [],
    category_rules := [⟨1, "STARBUCKS", 7, 10⟩, ⟨2, "STAR", 3, 1⟩] }

/-- A Card-variant row with type `Purchase` and source amount `12.34`. -/
def c7PurchaseRow : Row :=
  [("Transaction Date", "12/01/2024"), ("Clearing Date", "12/02/2024"),
   ("Description", "WIDGET SHOP"), ("Merchant", "Widget Shop"),
   ("Category", "Shopping"), ("Type", "Purchase"), ("Amount (USD)", "12.34")]

/-- The same row with type `Refund`. -/
def c7RefundRow : Row :=
  [("Transaction Date", "12/01/2024"), ("Clearing Date", "12/02/2024"),
   ("Description", "WIDGET SHOP"), ("Merchant", "Widget Shop"),
   ("Category", "Shopping"), ("Type", "Refund"), ("Amount (USD)", "12.34")]

/-- A `Purchase` row with a zero source amount, where `Decimal` negation
keeps the zero positive. -/
def c7ZeroRow : Row :=
  [("Transaction Date", "12/01/2024"), ("Clearing Date", "12/02/2024"),
   ("Description", "WIDGET SHOP"), ("Merchant", "Widget Shop"),
   ("Category", "Shopping"), ("Type", "Purchase"), ("Amount (USD)", "0.00")]

/-! ## Theorems

General lemmas first, then one theorem per claim (with its witness or
counterexample where required). -/

/-- Two strings with the same character data are equal. -/
theorem stringDataInj {s₁ s₂ : String} (h : s₁.data = s₂.data) : s₁ = s₂ := by
  cases s₁
  cases s₂
  simp only [String.data] at h
  rw [h]

/-- Splitting a character list at a separator absent from both left parts is
unambiguous. -/
theorem sepSplit {l₁ l₂ r₁ r₂ : List Char} (h₁ : '|' ∉ l₁) (h₂ : '|' ∉ l₂)
    (h : l₁ ++ '|' :: r₁ = l₂ ++ '|' :: r₂) : l₁ = l₂ ∧ r₁ = r₂ := by
  induction l₁ generalizing l₂ with
  | nil =>
    cases l₂ with
    | nil => simpa using h
    | cons d ds =>
      simp only [List.nil_append, List.cons_append, List.cons.injEq] at h
      exact absurd (by rw [h.1]; exact List.mem_cons_self _ _) h₂
  | cons c cs ih =>
    cases l₂ with
    | nil =>
      simp only [List.nil_append, List.cons_append, List.cons.injEq] at h
      exact absurd (by rw [h.1]; exact List.mem_cons_self _ _) h₁
    | cons d ds =>
      simp only [List.cons_append, List.cons.injEq] at h
      have hr := ih (fun hm => h₁ (List.mem_cons_of_mem c hm))
        (fun hm => h₂ (List.mem_cons_of_mem d hm)) h.2
      exact ⟨by rw [h.1, hr.1], hr.2⟩

/-- The character data of the joined fingerprint pre-image. -/
theorem joinFields_data (date amount description source : String) :
    (joinFields date amount description source).data =
      date.data ++ '|' :: (amount.data ++ '|' :: (description.data ++ '|' :: source.data)) := by
  simp [joinFields, String.data_append]

/-- Claim C5 (amended): the dedup fingerprint is the SHA-256 hex digest of
the four fields joined with the fixed separator `|`; identical field tuples
always give the same fingerprint; and a difference in the textual
representation of the date or the amount changes the string being hashed
provided none of those fields contains the separator character (distinct
pre-images are then distinguished only up to SHA-256 collisions). -/
theorem c5_fingerprint_canonicalization :
    (∀ date amount description source,
      generate_import_hash date amount description source =
        sha256hex (joinFields date amount description source)) ∧
    (∀ date amount description source,
      generate_import_hash date amount description source =
        generate_import_hash date amount description source) ∧
    (∀ d₁ a₁ d₂ a₂ description source,
      '|' ∉ d₁.data → '|' ∉ d₂.data → '|' ∉ a₁.data → '|' ∉ a₂.data →
      (d₁ ≠ d₂ ∨ a₁ ≠ a₂) →
      joinFields d₁ a₁ description source ≠ joinFields d₂ a₂ description source) := by
  refine ⟨fun _ _ _ _ => rfl, fun _ _ _ _ => rfl, ?_⟩
  intro d₁ a₁ d₂ a₂ description source hd₁ hd₂ ha₁ ha₂ hne hEq
  have hdata := congrArg String.data hEq
  rw [joinFields_data, joinFields_data] at hdata
  have h₁ := sepSplit hd₁ hd₂ hdata
  have h₂ := sepSplit ha₁ ha₂ h₁.2
  rcases hne with hd | ha
  · exact hd (stringDataInj h₁.1)
  · exact ha (stringDataInj h₂.1)

/-- Claim C5 as frozen is false: two inputs whose date and amount texts both
differ can share a fingerprint, because the joined pre-image is ambiguous
when a field contains the separator. -/
theorem c5_claim_counterexample :
    generate_import_hash "a" "b|c" "x" "y" = generate_import_hash "a|b" "c" "x" "y" ∧
    ("a" : String) ≠ "a|b" ∧ ("b|c" : String) ≠ "c" := by
  refine ⟨?_, by decide, by decide⟩
  show sha256hex ("a" ++ "|" ++ "b|c" ++ "|" ++ "x" ++ "|" ++ "y") =
    sha256hex ("a|b" ++ "|" ++ "c" ++ "|" ++ "x" ++ "|" ++ "y")
  exact congrArg sha256hex (by decide)

/-- Witness for C5 at concrete separator-free inputs. -/
theorem c5_fingerprint_canonicalization_witness :
    joinFields "2024-12-01" "-5.50" "X" "chase" ≠
      joinFields "2024-12-02" "-5.50" "X" "chase" :=
  c5_fingerprint_canonicalization.2.2 "2024-12-01" "-5.50" "2024-12-02" "-5.50" "X" "chase"
    (by decide) (by decide) (by decide) (by decide) (Or.inl (by decide))

/-- Claim C9: the Bank-variant merchant is the description run through the
cleanup pipeline (strip ten-plus-digit runs, strip a leading institutional
marker case-insensitively, strip date-like substrings, collapse whitespace
and trim); a cleanup that changes nothing yields an absent merchant; and the
spec's example description cleans up to `AMAZON`. -/
theorem c9_merchant_cleanup :
    (∀ description, chaseCleanDescription description = description →
      chaseExtractMerchant description = none) ∧
    (∀ description m, chaseExtractMerchant description = some m →
      m = chaseCleanDescription description ∧ m ≠ "" ∧ m ≠ description) ∧
    chaseExtractMerchant "DEBIT CARD 1234567890123 AMAZON 12/01/24" = some "AMAZON" := by
  refine ⟨?_, ?_, by decide⟩
  · intro d h
    simp [chaseExtractMerchant, h]
  · intro d m h
    simp only [chaseExtractMerchant] at h
    split at h
    · next hcond =>
      simp only [Bool.and_eq_true, bne_iff_ne, ne_eq] at hcond
      cases h
      exact ⟨rfl, hcond.1, hcond.2⟩
    · exact absurd h (by simp)

/-- Witness for C9: a description the cleanup leaves unchanged has no
merchant. -/
theorem c9_merchant_cleanup_witness : chaseExtractMerchant "AMAZON" = none :=
  c9_merchant_cleanup.1 "AMAZON" (by decide)

/-- Claim C10: whenever the cleanup result is empty the merchant is absent,
even when the cleanup did change the description — as for a description that
is a single ten-plus-digit transaction id. -/
theorem c10_empty_cleanup_merchant_absent :
    (∀ description, chaseCleanDescription description = "" →
      chaseExtractMerchant description = none) ∧
    (chaseCleanDescription "1234567890123" = "" ∧
     chaseCleanDescription "1234567890123" ≠ "1234567890123" ∧
     chaseExtractMerchant "1234567890123" = none) := by
  refine ⟨?_, by decide, by decide, by decide⟩
  intro d h
  simp [chaseExtractMerchant, h]

/-- Witness for C10 at a ten-digit transaction id. -/
theorem c10_empty_cleanup_merchant_absent_witness :
    chaseExtractMerchant "9999999999" = none :=
  c10_empty_cleanup_merchant_absent.1 "9999999999" (by decide)

/-- Membership is preserved by priority-descending insertion. -/
theorem mem_insertRuleDesc {r x : CategoryRule} {l : List CategoryRule} :
    x ∈ insertRuleDesc r l ↔ x = r ∨ x ∈ l := by
  induction l with
  | nil => simp [insertRuleDesc]
  | cons y ys ih =>
    simp only [insertRuleDesc]
    split
    · simp
    · simp [ih]
      tauto

/-- Membership is preserved by the priority-descending sort. -/
theorem mem_sortRulesDesc {x : CategoryRule} {l : List CategoryRule} :
    x ∈ sortRulesDesc l ↔ x ∈ l := by
  induction l with
  | nil => simp [sortRulesDesc]
  | cons y ys ih =>
    simp only [sortRulesDesc, List.foldr_cons] at ih ⊢
    rw [mem_insertRuleDesc, ih]
    simp

/-- Insertion keeps a list pairwise sorted by nonincreasing priority. -/
theorem pairwise_insertRuleDesc {r : CategoryRule} {l : List CategoryRule}
    (h : l.Pairwise (fun a b => b.priority ≤ a.priority)) :
    (insertRuleDesc r l).Pairwise (fun a b => b.priority ≤ a.priority) := by
  induction l with
  | nil => simp [insertRuleDesc]
  | cons y ys ih =>
    rw [List.pairwise_cons] at h
    simp only [insertRuleDesc]
    split
    · next hlt =>
      rw [List.pairwise_cons]
      refine ⟨?_, List.pairwise_cons.mpr h⟩
      intro z hz
      rcases List.mem_cons.mp hz with hz | hz
      · exact hz ▸ Int.le_of_lt hlt
      · exact le_trans (h.1 z hz) (Int.le_of_lt hlt)
    · next hge =>
      rw [List.pairwise_cons]
      refine ⟨?_, ih h.2⟩
      intro z hz
      rcases mem_insertRuleDesc.mp hz with hz | hz
      · exact hz ▸ Int.not_lt.mp hge
      · exact h.1 z hz

/-- The sorted rule list is pairwise sorted by nonincreasing priority. -/
theorem pairwise_sortRulesDesc (l : List CategoryRule) :
    (sortRulesDesc l).Pairwise (fun a b => b.priority ≤ a.priority) := by
  induction l with
  | nil => simp [sortRulesDesc]
  | cons y ys ih => exact pairwise_insertRuleDesc ih

/-- In a priority-descending list, the first match has maximal priority
among matches: every rule of strictly higher priority fails the predicate. -/
theorem find?_max_priority {l : List CategoryRule} {p : CategoryRule → Bool}
    {r : CategoryRule}
    (hs : l.Pairwise (fun a b => b.priority ≤ a.priority))
    (h : l.find? p = some r) :
    ∀ y ∈ l, r.priority < y.priority → p y = false := by
  induction l with
  | nil => simp at h
  | cons a t ih =>
    rw [List.pairwise_cons] at hs
    rw [List.find?_cons] at h
    intro y hy hlt
    split at h
    · next hpa =>
      cases h
      rcases List.mem_cons.mp hy with hy | hy
      · exact absurd hlt (by rw [hy]; exact lt_irrefl _)
      · exact absurd hlt (Int.not_lt.mpr (hs.1 y hy))
    · next hpa =>
      rcases List.mem_cons.mp hy with hy | hy
      · cases hy
        exact hpa
      · exact ih hs.2 h y hy hlt

/-- Claim C6: `categorize_transaction` returns `none` exactly when no rule's
pattern occurs case-insensitively in the description, and otherwise returns
the category of a matching rule than which no strictly-higher-priority rule
matches (the first match in descending priority order); in the spec's
scenario with `STARBUCKS` at priority 10 and `STAR` at priority 1, the
description `STARBUCKS #123` resolves to the priority-10 rule's category. -/
theorem c6_rule_priority :
    (∀ (store : Store) (description : String),
      (categorize_transaction store description = none ↔
        ∀ r ∈ store.category_rules, ruleMatches description r = false) ∧
      (∀ cid, categorize_transaction store description = some cid →
        ∃ r, r ∈ store.category_rules ∧ ruleMatches description r = true ∧
          r.category_id = cid ∧
          ∀ r₂ ∈ store.category_rules, r.priority < r₂.priority →
            ruleMatches description r₂ = false)) ∧
    categorize_transaction starStore "STARBUCKS #123" = some 7 := by
  refine ⟨fun store description => ⟨?_, ?_⟩, by decide⟩
  · rw [categorize_transaction, Option.map_eq_none', List.find?_eq_none]
    constructor
    · intro h r hr
      have := h r (mem_sortRulesDesc.mpr hr)
      simpa using this
    · intro h r hr
      simp [h r (mem_sortRulesDesc.mp hr)]
  · intro cid h
    rw [categorize_transaction, Option.map_eq_some'] at h
    obtain ⟨r, hfind, hcid⟩ := h
    refine ⟨r, mem_sortRulesDesc.mp (List.mem_of_find?_eq_some hfind),
      List.find?_some hfind, hcid, ?_⟩
    intro r₂ hr₂ hlt
    exact find?_max_priority (pairwise_sortRulesDesc _) hfind r₂
      (mem_sortRulesDesc.mpr hr₂) hlt

/-- Witness for C6: in the spec's scenario the returned category 7 comes
from a matching rule no higher-priority rule beats. -/
theorem c6_rule_priority_witness :
    ∃ r, r ∈ starStore.category_rules ∧ ruleMatches "STARBUCKS #123" r = true ∧
      r.category_id = 7 ∧
      ∀ r₂ ∈ starStore.category_rules, r.priority < r₂.priority →
        ruleMatches "STARBUCKS #123" r₂ = false :=
  (c6_rule_priority.1 starStore "STARBUCKS #123").2 7 (by decide)

/-- Claim C7: every row the Card-variant row parser accepts carries the
parsed source amount negated — by `Decimal` unary minus, which makes a
nonzero amount's sign negative and leaves a zero amount positive — when the
row's type label is `Purchase`, and unchanged (source sign kept) for every
other type. -/
theorem c7_sign_convention :
    ∀ (row : Row) (txn : ParsedTransaction), appleParseRow row = Except.ok txn →
      ∃ s d, rowGetE row "Amount (USD)" = Except.ok s ∧
        parseDec (removeChar ',' s) = some d ∧
        txn.amount = (if rowGetD row "Type" "" == "Purchase" then decNeg d else d) := by
  intro row txn h
  unfold appleParseRow at h
  cases h₁ : rowGetE row "Transaction Date" with
  | error e => rw [h₁] at h; exact absurd h (by simp)
  | ok date_str =>
    rw [h₁] at h
    dsimp only at h
    cases h₂ : parseDateMDY date_str with
    | none => rw [h₂] at h; exact absurd h (by simp)
    | some date_obj =>
      rw [h₂] at h
      dsimp only at h
      cases h₃ : rowGetE row "Amount (USD)" with
      | error e => rw [h₃] at h; exact absurd h (by simp)
      | ok raw_amount =>
        rw [h₃] at h
        dsimp only at h
        cases h₄ : parseDec (removeChar ',' raw_amount) with
        | none => rw [h₄] at h; exact absurd h (by simp)
        | some amount0 =>
          rw [h₄] at h
          dsimp only at h
          cases h₅ : rowGetE row "Description" with
          | error e => rw [h₅] at h; exact absurd h (by simp)
          | ok description =>
            rw [h₅] at h
            dsimp only at h
            simp only [Except.ok.injEq] at h
            subst h
            exact ⟨raw_amount, amount0, rfl, h₄, rfl⟩

/-- Witness for C7: a `Purchase` row with source amount `12.34` comes out
as `-12.34`; the same row typed `Refund` keeps the source sign; and a
`Purchase` row with source amount `0.00` stays the positive zero `0.00`. -/
theorem c7_sign_convention_witness :
    (∃ s d, rowGetE c7PurchaseRow "Amount (USD)" = Except.ok s ∧
      parseDec (removeChar ',' s) = some d ∧
      (⟨⟨2024, 12, 1⟩, ⟨true, 1234, 2⟩, "WIDGET SHOP", some "Widget Shop",
        some "Shopping"⟩ : ParsedTransaction).amount =
        (if rowGetD c7PurchaseRow "Type" "" == "Purchase" then decNeg d else d)) ∧
    (∃ s d, rowGetE c7RefundRow "Amount (USD)" = Except.ok s ∧
      parseDec (removeChar ',' s) = some d ∧
      (⟨⟨2024, 12, 1⟩, ⟨false, 1234, 2⟩, "WIDGET SHOP", some "Widget Shop",
        some "Shopping"⟩ : ParsedTransaction).amount =
        (if rowGetD c7RefundRow "Type" "" == "Purchase" then decNeg d else d)) ∧
    (∃ s d, rowGetE c7ZeroRow "Amount (USD)" = Except.ok s ∧
      parseDec (removeChar ',' s) = some d ∧
      (⟨⟨2024, 12, 1⟩, ⟨false, 0, 2⟩, "WIDGET SHOP", some "Widget Shop",
        some "Shopping"⟩ : ParsedTransaction).amount =
        (if rowGetD c7ZeroRow "Type" "" == "Purchase" then decNeg d else d)) :=
  ⟨c7_sign_convention c7PurchaseRow
      ⟨⟨2024, 12, 1⟩, ⟨true, 1234, 2⟩, "WIDGET SHOP", some "Widget Shop", some "Shopping"⟩
      (by rfl),
   c7_sign_convention c7RefundRow
      ⟨⟨2024, 12, 1⟩, ⟨false, 1234, 2⟩, "WIDGET SHOP", some "Widget Shop", some "Shopping"⟩
      (by rfl),
   c7_sign_convention c7ZeroRow
      ⟨⟨2024, 12, 1⟩, ⟨false, 0, 2⟩, "WIDGET SHOP", some "Widget Shop", some "Shopping"⟩
      (by rfl)⟩

/-- Claim C8: the peer-to-peer row loop yields exactly the parses of the
rows that pass the two filters (status `Complete`, type not
`Standard Transfer`), so no filtered-out row ever contributes a transaction;
and the number of warnings equals the number of *included* rows whose parse
fails, so filtered-out rows are not counted as warnings either. -/
theorem c8_p2p_filtering :
    ∀ (rows : List Row) (n : Nat),
      (venmoRowLoop n rows).1 =
        (rows.filter venmoIncluded).filterMap (fun r => (venmoParseRow r).toOption) ∧
      (venmoRowLoop n rows).2.length =
        ((rows.filter venmoIncluded).filter
          (fun r => !(venmoParseRow r).toOption.isSome)).length := by
  intro rows n
  induction rows generalizing n with
  | nil => simp [venmoRowLoop]
  | cons row rest ih =>
    have hih := ih (n + 1)
    simp only [venmoRowLoop, List.filter_cons]
    cases hst : rowGetOpt row "Status" == some "Complete" with
    | false =>
      simp only [venmoIncluded, hst, Bool.false_and, bne, Bool.not_false, if_true]
      exact hih
    | true =>
      cases hty : rowGetD row "Type" "" == "Standard Transfer" with
      | true =>
        simp only [venmoIncluded, hst, hty, Bool.true_and, Bool.not_true,
          Bool.and_false, bne, if_false]
        exact hih
      | false =>
        simp only [venmoIncluded, hst, hty, Bool.true_and, Bool.not_false,
          Bool.and_true, bne, Bool.not_true, if_false, if_true]
        cases hp : venmoParseRow row with
        | ok t =>
          simp [Except.toOption, hp, List.filterMap_cons, List.filter_cons, hih.1, hih.2]
        | error e =>
          simp [Except.toOption, hp, List.filterMap_cons, List.filter_cons, hih.1, hih.2]

/-- A successful `import_transaction` changes no table other than
`transactions`, never removes a stored hash, and ends with the row's hash
stored. -/
theorem import_transaction_ok_preserves {store st' : Store} {acc : Nat}
    {txn : ParsedTransaction} {src : String} {i : Nat} {b : Bool}
    (h : import_transaction store acc txn src = Except.ok (st', i, b)) :
    st'.categories = store.categories ∧ st'.accounts = store.accounts ∧
    st'.imports = store.imports ∧
    (∀ x ∈ storeHashes store, x ∈ storeHashes st') ∧
    txnHash txn src ∈ storeHashes st' := by
  unfold import_transaction at h
  cases hf : store.transactions.find? (fun t => t.import_hash == txnHash txn src) with
  | some e =>
    rw [hf] at h
    simp only [Except.ok.injEq, Prod.mk.injEq] at h
    have he : e.import_hash = txnHash txn src := by
      have := List.find?_some hf
      simpa using this
    refine ⟨h.1 ▸ rfl, h.1 ▸ rfl, h.1 ▸ rfl, fun x hx => h.1 ▸ hx, ?_⟩
    rw [← h.1]
    exact he ▸ List.mem_map_of_mem _ (List.mem_of_find?_eq_some hf)
  | none =>
    rw [hf] at h
    cases hc :
        (match categorize_transaction store txn.description with
         | some c => Except.ok c
         | none => get_uncategorized_category_id store : Except String Nat) with
    | error e => rw [hc] at h; exact absurd h (by simp)
    | ok category_id =>
      rw [hc] at h
      dsimp only at h
      simp only [Except.ok.injEq, Prod.mk.injEq] at h
      rw [← h.1]
      refine ⟨rfl, rfl, rfl, ?_, ?_⟩
      · intro x hx
        simp only [storeHashes, List.map_append] at hx ⊢
        exact List.mem_append_left _ hx
      · simp [storeHashes, insertedTransaction]

/-- When the store has an `Uncategorized` category, `import_transaction`
never raises. -/
theorem import_transaction_ok_of_uncat (store : Store) (acc : Nat)
    (txn : ParsedTransaction) (src : String)
    (h : "Uncategorized" ∈ store.categories.map DbCategory.name) :
    ∃ st' i b, import_transaction store acc txn src = Except.ok (st', i, b) := by
  unfold import_transaction
  cases hf : store.transactions.find? (fun t => t.import_hash == txnHash txn src) with
  | some e => exact ⟨store, e.id, true, rfl⟩
  | none =>
    cases hcat : categorize_transaction store txn.description with
    | some c => exact ⟨_, _, _, rfl⟩
    | none =>
      obtain ⟨c, hc, hname⟩ := List.mem_map.mp h
      have hs : (store.categories.find? (fun c => c.name == "Uncategorized")).isSome :=
        List.find?_isSome.mpr ⟨c, hc, by simp [hname]⟩
      obtain ⟨c', hc'⟩ := Option.isSome_iff_exists.mp hs
      unfold get_uncategorized_category_id
      rw [hc']
      exact ⟨_, _, _, rfl⟩

/-- The per-row loop changes no table other than `transactions` and never
removes a stored hash. -/
theorem importLoop_preserves (acc : Nat) (src : String) :
    ∀ (txns : List ParsedTransaction) (store : Store) (idx : Nat),
      (importLoop acc src store idx txns).1.categories = store.categories ∧
      (importLoop acc src store idx txns).1.accounts = store.accounts ∧
      (importLoop acc src store idx txns).1.imports = store.imports ∧
      (∀ x ∈ storeHashes store, x ∈ storeHashes (importLoop acc src store idx txns).1) := by
  intro txns
  induction txns with
  | nil => intro store idx; simp [importLoop]
  | cons txn rest ih =>
    intro store idx
    simp only [importLoop]
    cases hit : import_transaction store acc txn src with
    | ok q =>
      obtain ⟨st', i, b⟩ := q
      have hpres := import_transaction_ok_preserves hit
      have hrest := ih st' (idx + 1)
      cases b <;>
        dsimp only <;>
        exact ⟨hrest.1.trans hpres.1, hrest.2.1.trans hpres.2.1,
          hrest.2.2.1.trans hpres.2.2.1,
          fun x hx => hrest.2.2.2 x (hpres.2.2.2.1 x hx)⟩
    | error e =>
      have hrest := ih store (idx + 1)
      dsimp only
      exact hrest

/-- With an `Uncategorized` category present the per-row loop produces no
errors, and afterwards every row's hash is stored. -/
theorem importLoop_clean (acc : Nat) (src : String) :
    ∀ (txns : List ParsedTransaction) (store : Store) (idx : Nat),
      "Uncategorized" ∈ store.categories.map DbCategory.name →
      (importLoop acc src store idx txns).2.2.2 = [] ∧
      (∀ t ∈ txns, txnHash t src ∈ storeHashes (importLoop acc src store idx txns).1) := by
  intro txns
  induction txns with
  | nil => intro store idx _; simp [importLoop]
  | cons txn rest ih =>
    intro store idx h
    obtain ⟨st', i, b, hok⟩ := import_transaction_ok_of_uncat store acc txn src h
    have hpres := import_transaction_ok_preserves hok
    have h' : "Uncategorized" ∈ st'.categories.map DbCategory.name := by
      rw [hpres.1]; exact h
    have hrest := ih st' (idx + 1) h'
    have hloopres := importLoop_preserves acc src rest st' (idx + 1)
    simp only [importLoop]
    rw [hok]
    cases b <;> dsimp only <;>
      exact ⟨hrest.1, fun t ht => by
        rcases List.mem_cons.mp ht with ht | ht
        · exact ht ▸ hloopres.2.2.2 _ hpres.2.2.2.2
        · exact hrest.2 t ht⟩

/-- When every row's hash is already stored, the loop leaves the store
untouched, imports nothing, records no errors and counts every row as a
duplicate. -/
theorem importLoop_all_dup (acc : Nat) (src : String) :
    ∀ (txns : List ParsedTransaction) (store : Store) (idx : Nat),
      (∀ t ∈ txns, txnHash t src ∈ storeHashes store) →
      importLoop acc src store idx txns = (store, 0, txns.length, []) := by
  intro txns
  induction txns with
  | nil => intro store idx _; simp [importLoop]
  | cons txn rest ih =>
    intro store idx h
    have hmem := h txn (List.mem_cons_self _ _)
    simp only [storeHashes, List.mem_map] at hmem
    obtain ⟨row, hrow, hhash⟩ := hmem
    have hs : (store.transactions.find? (fun t => t.import_hash == txnHash txn src)).isSome :=
      List.find?_isSome.mpr ⟨row, hrow, by simp [hhash]⟩
    obtain ⟨e, he⟩ := Option.isSome_iff_exists.mp hs
    have hit : import_transaction store acc txn src = Except.ok (store, e.id, true) := by
      unfold import_transaction
      rw [he]
    simp only [importLoop]
    rw [hit]
    dsimp only
    rw [ih store (idx + 1) (fun t ht => h t (List.mem_cons_of_mem _ ht))]
    simp

/-- Account resolution only touches the `accounts` table. -/
theorem get_or_create_account_fields (store : Store) (n i : String) :
    (get_or_create_account store n i).1.categories = store.categories ∧
    (get_or_create_account store n i).1.transactions = store.transactions ∧
    (get_or_create_account store n i).1.imports = store.imports := by
  unfold get_or_create_account
  cases store.accounts.find? (fun a => a.name == n && a.institution == i) <;> simp

/-- After account resolution the `accounts` table holds a matching account. -/
theorem get_or_create_account_mem (store : Store) (n i : String) :
    ∃ a ∈ (get_or_create_account store n i).1.accounts, a.name = n ∧ a.institution = i := by
  unfold get_or_create_account
  cases hf : store.accounts.find? (fun a => a.name == n && a.institution == i) with
  | some a =>
    have := List.find?_some hf
    simp only [Bool.and_eq_true, beq_iff_eq] at this
    exact ⟨a, List.mem_of_find?_eq_some hf, this⟩
  | none =>
    refine ⟨⟨store.accounts.length + 1, n, i, none⟩, ?_, rfl, rfl⟩
    simp

/-- When a matching account exists, resolution leaves the store unchanged. -/
theorem get_or_create_account_found {store : Store} {n i : String}
    (h : ∃ a ∈ store.accounts, a.name = n ∧ a.institution = i) :
    (get_or_create_account store n i).1 = store := by
  obtain ⟨a, ha, h1, h2⟩ := h
  have hs : (store.accounts.find? (fun a => a.name == n && a.institution == i)).isSome :=
    List.find?_isSome.mpr ⟨a, ha, by simp [h1, h2]⟩
  obtain ⟨a', ha'⟩ := Option.isSome_iff_exists.mp hs
  unfold get_or_create_account
  rw [ha']

/-- The whole per-row phase leaves the `imports` table unchanged. -/
theorem importPhase_imports (store : Store) (account_id : Option Nat)
    (result : ParseResult) :
    (importPhase store account_id result).1.imports = store.imports := by
  unfold importPhase
  cases account_id with
  | some a => exact (importLoop_preserves _ _ _ _ _).2.2.1
  | none =>
    dsimp only
    exact ((importLoop_preserves _ _ _ _ _).2.2.1).trans
      (get_or_create_account_fields store result.account_name result.institution).2.2

/-- Claim C3: when no parser matches, `import_file` raises and no
ImportRecord is written; when a parser is detected and parses the file, the
run returns normally and the `imports` table is the old one with exactly one
appended record carrying the filename, the institution, the imported count
and the status — so prior records are never updated or removed. -/
theorem c3_import_record :
    ∀ (ps : List ParserModel) (store : Store) (file : FileModel)
      (account_id : Option Nat),
      (detectParser ps file = none →
        import_file ps store file account_id =
          Except.error ("No parser found for file: " ++ file.name)) ∧
      (∀ p r, detectParser ps file = some p → p.parse file = Except.ok r →
        ∃ st s, import_file ps store file account_id = Except.ok (st, s) ∧
          st.imports = store.imports ++
            [⟨file.name, r.institution, s.imported, s.status⟩]) := by
  intro ps store file account_id
  constructor
  · intro hd
    unfold import_file
    rw [hd]
  · intro p r hd hp
    unfold import_file
    rw [hd]
    dsimp only
    rw [hp]
    dsimp only
    refine ⟨_, _, rfl, ?_⟩
    dsimp only
    rw [importPhase_imports]

/-- Witness for C3 at a one-row Apple Card file over a seeded store. -/
theorem c3_import_record_witness :
    ∃ st s, import_file [appleParserModel] w3Store w3File none = Except.ok (st, s) ∧
      st.imports = w3Store.imports ++
        [⟨w3File.name, "Apple", s.imported, s.status⟩] :=
  (c3_import_record [appleParserModel] w3Store w3File none).2 appleParserModel
    (appleParse w3File.rows) (by rfl) (by rfl)

/-- Claim C1 (amended): once the per-row phase runs, the import returns
normally; the summary's error list is the per-row import errors followed by
the parser's row warnings; and the status is computed from the per-row
errors of the loop alone — `success` exactly when there are none (even when
parser warnings exist), `partial` exactly when there is at least one and at
least one row was imported, `failed` exactly when there is at least one and
no row was imported. -/
theorem c1_status_semantics :
    ∀ (ps : List ParserModel) (store : Store) (file : FileModel)
      (account_id : Option Nat) (p : ParserModel) (r : ParseResult),
      detectParser ps file = some p → p.parse file = Except.ok r →
      ∃ st s, import_file ps store file account_id = Except.ok (st, s) ∧
        s.errors = (importPhase store account_id r).2.2.2 ++ r.warnings ∧
        s.imported = (importPhase store account_id r).2.1 ∧
        (s.status = "success" ↔ (importPhase store account_id r).2.2.2 = []) ∧
        (s.status = "partial" ↔
          ((importPhase store account_id r).2.2.2 ≠ [] ∧ 0 < s.imported)) ∧
        (s.status = "failed" ↔
          ((importPhase store account_id r).2.2.2 ≠ [] ∧ s.imported = 0)) := by
  intro ps store file account_id p r hd hp
  unfold import_file
  rw [hd]
  dsimp only
  rw [hp]
  dsimp only
  refine ⟨_, _, rfl, rfl, rfl, ?_, ?_, ?_⟩ <;>
    by_cases hE : (importPhase store account_id r).2.2.2 = [] <;>
    by_cases hI : 0 < (importPhase store account_id r).2.1 <;>
    simp +decide [List.isEmpty_iff, hE, hI, Nat.pos_iff_ne_zero] <;>
    omega

/-- Claim C1 as frozen is false: on a file whose parse yields one good row
and one row warning, the run imports one row with one entry in the summary's
error list, yet the status is `success`, not the `partial` the claim
requires when at least one row was imported and at least one error/warning
exists. -/
theorem c1_claim_counterexample :
    ((import_file [appleParserModel] c1Store c1File none).toOption.map
      (fun q => (q.2.status, q.2.imported, q.2.errors))) =
      some ("success", 1, ["Row 3: time data does not match format: oops"]) ∧
    ("success" : String) ≠ "partial" :=
  ⟨by decide, by decide⟩

/-- Witness for C1 at the same concrete run. -/
theorem c1_status_semantics_witness :
    ∃ st s, import_file [appleParserModel] c1Store c1File none = Except.ok (st, s) ∧
      s.errors = (importPhase c1Store none (appleParse c1File.rows)).2.2.2 ++
        (appleParse c1File.rows).warnings ∧
      s.imported = (importPhase c1Store none (appleParse c1File.rows)).2.1 ∧
      (s.status = "success" ↔
        (importPhase c1Store none (appleParse c1File.rows)).2.2.2 = []) ∧
      (s.status = "partial" ↔
        ((importPhase c1Store none (appleParse c1File.rows)).2.2.2 ≠ [] ∧
          0 < s.imported)) ∧
      (s.status = "failed" ↔
        ((importPhase c1Store none (appleParse c1File.rows)).2.2.2 ≠ [] ∧
          s.imported = 0)) :=
  c1_status_semantics [appleParserModel] c1Store c1File none appleParserModel
    (appleParse c1File.rows) (by rfl) (by rfl)

/-- Claim C2 against the code: with no `Uncategorized` category and two
parseable rows that need the fallback, `import_file` does not propagate the
configuration error — it returns a summary normally, having processed both
rows and recorded one caught error per row. -/
theorem c2_missing_uncategorized_not_fatal :
    ((import_file [appleParserModel] c2Store c2File none).toOption.map
      (fun q => (q.2.status, q.2.imported, q.2.duplicates, q.2.errors))) =
      some ("failed", 0, 0,
        ["Transaction 1 (2024-12-01 $-12.34): Uncategorized category not found in database",
         "Transaction 2 (2024-12-03 $-30.00): Uncategorized category not found in database"]) := by
  decide

/-- After a first run over a store seeded with `Uncategorized`: no per-row
errors, every row's hash is stored, and a matching account exists. -/
theorem importPhase_first_run (store : Store) (r : ParseResult)
    (hu : "Uncategorized" ∈ store.categories.map DbCategory.name) :
    (importPhase store none r).2.2.2 = [] ∧
    (∀ t ∈ r.transactions,
      txnHash t (pyLower r.institution) ∈ storeHashes (importPhase store none r).1) ∧
    (∃ a ∈ (importPhase store none r).1.accounts,
      a.name = r.account_name ∧ a.institution = r.institution) := by
  have hfields := get_or_create_account_fields store r.account_name r.institution
  have hu1 : "Uncategorized" ∈
      (get_or_create_account store r.account_name r.institution).1.categories.map
        DbCategory.name := by
    rw [hfields.1]; exact hu
  have hclean := importLoop_clean
    (get_or_create_account store r.account_name r.institution).2
    (pyLower r.institution) r.transactions
    (get_or_create_account store r.account_name r.institution).1 1 hu1
  have hpres := importLoop_preserves
    (get_or_create_account store r.account_name r.institution).2
    (pyLower r.institution) r.transactions
    (get_or_create_account store r.account_name r.institution).1 1
  obtain ⟨a, ha, h1, h2⟩ := get_or_create_account_mem store r.account_name r.institution
  unfold importPhase
  dsimp only
  exact ⟨hclean.1, hclean.2, a, by rw [hpres.2.1]; exact ha, h1, h2⟩

/-- A run over a store that already holds every row's hash and a matching
account queries, counts and skips every row, touching nothing. -/
theorem importPhase_second_run {store : Store} {r : ParseResult}
    (hacc : ∃ a ∈ store.accounts, a.name = r.account_name ∧ a.institution = r.institution)
    (hhash : ∀ t ∈ r.transactions, txnHash t (pyLower r.institution) ∈ storeHashes store) :
    importPhase store none r = (store, 0, r.transactions.length, []) := by
  unfold importPhase
  dsimp only
  rw [get_or_create_account_found hacc]
  exact importLoop_all_dup _ _ r.transactions store 1 hhash

/-- A detected and parsed import over a store holding every row's hash and a
matching account reports every row as a duplicate, imports nothing, and
leaves the `transactions` table unchanged. -/
theorem import_file_all_dup {ps : List ParserModel} {file : FileModel}
    {p : ParserModel} {r : ParseResult} (store : Store)
    (hd : detectParser ps file = some p) (hp : p.parse file = Except.ok r)
    (hacc : ∃ a ∈ store.accounts, a.name = r.account_name ∧ a.institution = r.institution)
    (hhash : ∀ t ∈ r.transactions, txnHash t (pyLower r.institution) ∈ storeHashes store) :
    ∃ st2 s2, import_file ps store file none = Except.ok (st2, s2) ∧
      s2.duplicates = s2.total_transactions ∧ s2.imported = 0 ∧
      s2.errors = r.warnings ∧ s2.status = "success" ∧
      st2.transactions = store.transactions := by
  unfold import_file
  rw [hd]
  dsimp only
  rw [hp]
  dsimp only
  rw [importPhase_second_run hacc hhash]
  exact ⟨_, _, rfl, rfl, rfl, rfl, rfl, rfl⟩

/-- A detected and parsed import over an `Uncategorized`-seeded store
returns normally and leaves a store holding every row's hash and a matching
account. -/
theorem import_file_seeded_run {ps : List ParserModel} {store : Store} {file : FileModel}
    {p : ParserModel} {r : ParseResult}
    (hd : detectParser ps file = some p) (hp : p.parse file = Except.ok r)
    (hu : "Uncategorized" ∈ store.categories.map DbCategory.name) :
    ∃ st1 s1, import_file ps store file none = Except.ok (st1, s1) ∧
      (∃ a ∈ st1.accounts, a.name = r.account_name ∧ a.institution = r.institution) ∧
      (∀ t ∈ r.transactions, txnHash t (pyLower r.institution) ∈ storeHashes st1) := by
  have hfirst := importPhase_first_run store r hu
  unfold import_file
  rw [hd]
  dsimp only
  rw [hp]
  dsimp only
  exact ⟨_, _, rfl, hfirst.2.2, hfirst.2.1⟩

/-- Claim C4: importing the same file twice against a store seeded with the
`Uncategorized` category: the second run returns normally with
`duplicates = total_transactions` and `imported = 0`, its per-row errors are
empty (the summary's error list is just the parser warnings), and the
`transactions` table after the second run equals the table after the first —
no row is inserted and no stored row is mutated. -/
theorem c4_reimport_idempotent :
    ∀ (ps : List ParserModel) (store : Store) (file : FileModel)
      (p : ParserModel) (r : ParseResult),
      detectParser ps file = some p → p.parse file = Except.ok r →
      "Uncategorized" ∈ store.categories.map DbCategory.name →
      ∃ st1 s1 st2 s2,
        import_file ps store file none = Except.ok (st1, s1) ∧
        import_file ps st1 file none = Except.ok (st2, s2) ∧
        s2.duplicates = s2.total_transactions ∧
        s2.imported = 0 ∧
        s2.errors = r.warnings ∧
        s2.status = "success" ∧
        st2.transactions = st1.transactions := by
  intro ps store file p r hd hp hu
  obtain ⟨st1, s1, hrun1, hacc, hhash⟩ := import_file_seeded_run hd hp hu
  obtain ⟨st2, s2, hrun2, hdup, himp, herr, hstat, htxn⟩ :=
    import_file_all_dup st1 hd hp hacc hhash
  exact ⟨st1, s1, st2, s2, hrun1, hrun2, hdup, himp, herr, hstat, htxn⟩

/-- Witness for C4 at a two-row Apple Card file over a seeded store. -/
theorem c4_reimport_idempotent_witness :
    ∃ st1 s1 st2 s2,
      import_file [appleParserModel] c4Store c4File none = Except.ok (st1, s1) ∧
      import_file [appleParserModel] st1 c4File none = Except.ok (st2, s2) ∧
      s2.duplicates = s2.total_transactions ∧
      s2.imported = 0 ∧
      s2.errors = (appleParse c4File.rows).warnings ∧
      s2.status = "success" ∧
      st2.transactions = st1.transactions :=
  c4_reimport_idempotent [appleParserModel] c4Store c4File appleParserModel
    (appleParse c4File.rows) (by rfl) (by rfl) (by decide)
